import Mathlib

/-!
A verification development for the race-replay engine of an F1 telemetry
dashboard (`app.py`, function `render_replay_tab`).  The replay pipeline is
embedded shallowly: times and telemetry values are rationals (the raw pandas
frames have been `dropna`-ed, so raw samples carry plain numbers; the only
NaNs ever produced are the `left`/`right` fill values of `np.interp`, which
are modelled as `Option.none`).
-/

namespace F1Replay

/-- One raw telemetry sample, i.e. one row of the per-car DataFrame
`tel[['TimeSec', 'X', 'Y', 'Speed', 'nGear', 'DRS', 'Distance', 'LapNumber']].dropna()`
(app.py line 855). -/
structure RawSample where
  timeSec : ℚ
  x : ℚ
  y : ℚ
  speed : ℚ
  gear : ℤ
  drs : ℤ
  distance : ℚ
  lapNumber : ℤ
deriving Repr, DecidableEq

/-- The times of a sample list (the `t_orig = tel['TimeSec'].values` array,
app.py line 858). -/
def times (samples : List RawSample) : List ℚ := samples.map (·.timeSec)

/-- Raw sample times are strictly increasing (telemetry is time-ordered). -/
def StrictTimes (samples : List RawSample) : Prop :=
  (times samples).Chain' (· < ·)

/-- Piecewise-linear interpolation over a (time, value) list, assuming the
query time lies within the time range: walk the segments and evaluate the
first segment whose right endpoint is at or after `t`.  This is the in-range
behaviour of `np.interp`. -/
def interpCore : List (ℚ × ℚ) → ℚ → ℚ
  | [], _ => 0
  | [p], _ => p.2
  | p :: q :: rest, t =>
    if t ≤ q.1 then p.2 + (q.2 - p.2) * (t - p.1) / (q.1 - p.1)
    else interpCore (q :: rest) t

/-- `np.interp(t, xp, fp, left=l, right=r)` for a single query point `t`:
`l` if `t` is before the first sample time, `r` if `t` is after the last
sample time, and linear interpolation in between.  `none` encodes NaN
(`left=np.nan` / `right=np.nan` in app.py lines 861-864). -/
def npInterp (pts : List (ℚ × ℚ)) (left right : Option ℚ) (t : ℚ) : Option ℚ :=
  match pts.head?, pts.getLast? with
  | some p, some q =>
    if t < p.1 then left
    else if q.1 < t then right
    else some (interpCore pts t)
  | _, _ => none

/-- `idx = np.clip(np.searchsorted(t_orig, time_grid, side='right') - 1, 0, len(t_orig)-1)`
for one grid time (app.py lines 867-868).  For a sorted time array,
`searchsorted(..., side='right')` is the count of sample times `≤ t`;
truncated ℕ subtraction realises the lower clip at 0 and `min` the upper
clip at `len-1`. -/
def discreteIdx (ts : List ℚ) (t : ℚ) : ℕ :=
  min (ts.countP (fun u => decide (u ≤ t)) - 1) (ts.length - 1)

/-- One row of the per-car resampled DataFrame
`pd.DataFrame({'X', 'Y', 'Distance', 'Speed', 'nGear', 'DRS'})`
(app.py lines 871-874).  `Option` fields model float columns that may hold
NaN fill values. -/
structure ResampledRow where
  x : Option ℚ
  y : Option ℚ
  distance : Option ℚ
  speed : Option ℚ
  gear : ℤ
  drs : ℤ
deriving Repr, DecidableEq

/-- The columns of the per-car resampled DataFrame built at app.py
lines 871-874.  Note that `LapNumber`, although kept in the raw `tel`
frame (line 855), is not among them. -/
def interpolatedColumns : List String :=
  ["X", "Y", "Distance", "Speed", "nGear", "DRS"]

/-- Resampling one car at one grid time (app.py lines 861-870):
* `x`, `y`: `np.interp` with `left=np.nan, right=np.nan`;
* `distance`: `np.interp` with `left=0, right=np.nan`;
* `speed`: `np.interp` with `left=0, right=0`;
* `gear`, `drs`: the raw value at the clipped `searchsorted` index
  (last-observed-value).  `getD 0` covers only the empty-sample case,
  which the pipeline never reaches (empty telemetry raises inside
  `np.interp` and the car is excluded). -/
def resampleAt (samples : List RawSample) (t : ℚ) : ResampledRow :=
  { x := npInterp (samples.map fun s => (s.timeSec, s.x)) none none t
    y := npInterp (samples.map fun s => (s.timeSec, s.y)) none none t
    distance := npInterp (samples.map fun s => (s.timeSec, s.distance)) (some 0) none t
    speed := npInterp (samples.map fun s => (s.timeSec, s.speed)) (some 0) (some 0) t
    gear := (samples.map (·.gear)).getD (discreteIdx (times samples) t) 0
    drs := (samples.map (·.drs)).getD (discreteIdx (times samples) t) 0 }

/-- A car's track: its raw samples resampled at every grid time, aligned
1:1 with the time grid. -/
def resampleCar (samples : List RawSample) (grid : List ℚ) : List ResampledRow :=
  grid.map (resampleAt samples)

/-- One entry of the per-frame `current_positions` list (app.py
lines 920-925): driver name, distance, speed, and the gap filled in later
(initialised to the placeholder 0).  When the entry is created the guard
`not isna(X) and not isna(Y)` has passed, and then `Distance`/`Speed` are
provably non-NaN, so the defined values are extracted with `getD 0`. -/
structure PosEntry where
  driver : String
  distance : ℚ
  speed : ℚ
  gap : ℚ
deriving Repr, DecidableEq

/-- The gap column of a leaderboard line: either the literal `"LEADER"`
or the `"+{gap:.1f}s"` text carrying the gap value (app.py line 977). -/
inductive GapLabel where
  | leader : GapLabel
  | gap : ℚ → GapLabel
deriving Repr, DecidableEq

/-- The focus-driver telemetry overlay `tel_text` (app.py line 984): the
driver's name, speed and approximate gap are interpolated into the string. -/
structure FocusSnap where
  driver : String
  speed : ℚ
  gap : ℚ
deriving Repr, DecidableEq

/-- One animation frame: the flat marker coordinate arrays
(`frame_x`/`frame_y`, which may in principle hold NaN, hence `Option`),
the full ranked `current_positions` list with gaps, the displayed
leaderboard lines (top 10), and the optional focus telemetry overlay. -/
structure Frame where
  time : ℚ
  markers : List (Option ℚ × Option ℚ)
  positions : List PosEntry
  leaderboard : List (String × GapLabel)
  telSnap : Option FocusSnap
deriving Repr, DecidableEq

/-- `trail_length = 5` (app.py line 888). -/
def trailLength : ℕ := 5

/-- The marker points one present car adds to `frame_x`/`frame_y` at grid
index `i` (app.py lines 932-933 and 948-960): the current point, then for
`j = 1..trail_length` with `i - j ≥ 0` the point at index `i - j` whenever
its X is not NaN (its Y is appended without being checked). -/
def carMarkers (track : List ResampledRow) (i : ℕ) (row : ResampledRow) :
    List (Option ℚ × Option ℚ) :=
  (row.x, row.y) ::
    (List.range trailLength).filterMap (fun j =>
      if j + 1 ≤ i then
        match track[i - (j + 1)]? with
        | some prev => if prev.x.isSome then some (prev.x, prev.y) else none
        | none => none
      else none)

/-- What one car contributes to frame `i`: its marker points and its
`current_positions` entry.  Nothing is contributed when the row is missing
(`i` out of range) or the position is NaN (app.py lines 911-913). -/
def carContrib (i : ℕ) (name : String) (track : List ResampledRow) :
    List (Option ℚ × Option ℚ) × List PosEntry :=
  match track[i]? with
  | none => ([], [])
  | some row =>
    if row.x.isSome && row.y.isSome then
      (carMarkers track i row,
        [{ driver := name, distance := row.distance.getD 0,
           speed := row.speed.getD 0, gap := 0 }])
    else ([], [])

/-- The `current_positions` list of frame `i` before sorting: per-driver
entries in driver order. -/
def presentEntries (tracks : List (String × List ResampledRow)) (i : ℕ) :
    List PosEntry :=
  tracks.flatMap (fun nt => (carContrib i nt.1 nt.2).2)

/-- The flat `frame_x`/`frame_y` marker array of frame `i`: per-driver
marker blocks in driver order. -/
def frameMarkers (tracks : List (String × List ResampledRow)) (i : ℕ) :
    List (Option ℚ × Option ℚ) :=
  tracks.flatMap (fun nt => (carContrib i nt.1 nt.2).1)

/-- The leaderboard ordering used by
`current_positions.sort(key=lambda x: x['Distance'], reverse=True)`
(app.py line 966): sorted by distance descending. -/
def lbRel (p q : PosEntry) : Prop := q.distance ≤ p.distance

instance : DecidableRel lbRel := fun p q =>
  inferInstanceAs (Decidable (q.distance ≤ p.distance))

instance : IsTotal PosEntry lbRel := ⟨fun p q => le_total q.distance p.distance⟩

instance : IsTrans PosEntry lbRel := ⟨fun _ _ _ h1 h2 => le_trans h2 h1⟩

/-- Python's `list.sort` is a stable sort; a stable sort by a key is
extensionally the insertion sort over the key relation. -/
def sortPositions (l : List PosEntry) : List PosEntry :=
  List.insertionSort lbRel l

/-- Fill in the gaps (app.py lines 969-972): with `leader_dist` the distance
of the first sorted entry, every entry's gap becomes
`(leader_dist - distance) / 200`. -/
def withGaps : List PosEntry → List PosEntry
  | [] => []
  | leader :: rest =>
    (leader :: rest).map
      (fun p => { p with gap := (leader.distance - p.distance) / 200 })

/-- The gap label of one displayed leaderboard line (app.py line 977):
`"+{gap:.1f}s"` if the gap is strictly positive, else `"LEADER"`. -/
def labelOf (p : PosEntry) : GapLabel :=
  if 0 < p.gap then .gap p.gap else .leader

/-- Build frame `i` at grid time `t` (the body of the
`for i, t in enumerate(time_grid)` loop, app.py lines 893-1033):
collect marker points and `current_positions`, sort by distance
descending, fill in gaps, render the top-10 leaderboard lines, and emit
the focus overlay if the focus driver is among the present cars. -/
def buildFrame (tracks : List (String × List ResampledRow)) (focus : String)
    (i : ℕ) (t : ℚ) : Frame :=
  let positions := withGaps (sortPositions (presentEntries tracks i))
  { time := t
    markers := frameMarkers tracks i
    positions := positions
    leaderboard := (positions.take 10).map (fun p => (p.driver, labelOf p))
    telSnap :=
      if positions.any (fun p => p.driver == focus) then
        (positions.find? (fun p => p.driver == focus)).map
          (fun p => { driver := focus, speed := p.speed, gap := p.gap })
      else none }

/-- The `frames` list, accumulated by `frames.append(...)` inside the loop
over `enumerate(time_grid)`. -/
def buildFrames (tracks : List (String × List ResampledRow)) (focus : String)
    (grid : List ℚ) : List Frame :=
  grid.enum.foldl (fun acc it => acc ++ [buildFrame tracks focus it.1 it.2]) []

/-- The assembled animation: the initial displayed data is the first
frame's marker array, or an empty placeholder scatter when there are no
frames (app.py lines 1040-1047); the frame sequence is attached as-is. -/
structure Animation where
  initMarkers : List (Option ℚ × Option ℚ)
  frames : List Frame
deriving Repr, DecidableEq

/-- `init_data = frames[0].data[0] if frames else go.Scatter(x=[], y=[])`
plus the frame list (app.py lines 1040-1089).  There is no failure path:
the figure is always built. -/
def assemble (frames : List Frame) : Animation :=
  { initMarkers := match frames with | [] => [] | f :: _ => f.markers
    frames := frames }

/-- One lap row of a driver's laps table: lap number, lap time in seconds,
and the lap's telemetry samples. -/
structure LapInfo where
  lapNumber : ℤ
  lapTime : ℚ
  telemetry : List RawSample
deriving Repr, DecidableEq

/-- One driver available to the replay: name and laps table
(`session.laps.pick_driver(abbr)`). -/
structure DriverEntry where
  name : String
  laps : List LapInfo
deriving Repr, DecidableEq

/-- `np.arange(start, stop, step)`: `start + k * step` for
`k = 0, 1, ...` while the value is below `stop`; the count is
`⌈(stop - start) / step⌉`. -/
def arange (start stop step : ℚ) : List ℚ :=
  (List.range (⌈(stop - start) / step⌉).toNat).map (fun k => start + k * step)

/-- The single-lap time grid
`np.arange(0, lap_duration + 2.0, 0.4)` (app.py line 829). -/
def lapGrid (lapDur : ℚ) : List ℚ := arange 0 (lapDur + 2) (2 / 5)

/-- The fatal per-request error of app.py line 824:
`"Driver {focus_driver} did not complete Lap {selected_lap}."` -/
structure ReplayError where
  driver : String
  lap : ℤ
deriving Repr, DecidableEq

/-- Per-driver resampling for a single-lap replay (app.py lines 843-877):
a driver with no row for the selected lap is skipped (`continue`), and a
driver whose lap telemetry is empty after `dropna` is excluded as well
(`np.interp` raises on an empty sample array and the `except` clause
continues to the next driver). -/
def carTrackFor (lapN : ℤ) (grid : List ℚ) (d : DriverEntry) :
    Option (String × List ResampledRow) :=
  match d.laps.find? (fun l => l.lapNumber == lapN) with
  | none => none
  | some l =>
    if l.telemetry.isEmpty then none
    else some (d.name, resampleCar l.telemetry grid)

/-- The single-lap replay pipeline (app.py lines 817-1093): look up the
focus driver's selected lap — if it is missing, fail with the per-request
error before any resampling or frame building; otherwise derive the time
grid from the focus driver's lap duration, resample every non-excluded
driver, build one frame per grid entry, and assemble the animation. -/
def generateReplay (drivers : List DriverEntry) (focus : String) (lapN : ℤ) :
    Except ReplayError Animation :=
  match (((drivers.find? (fun d => d.name == focus)).map (·.laps)).getD []).find?
      (fun l => l.lapNumber == lapN) with
  | none => .error { driver := focus, lap := lapN }
  | some lap =>
    .ok (assemble (buildFrames
      (drivers.filterMap (carTrackFor lapN (lapGrid lap.lapTime)))
      focus (lapGrid lap.lapTime)))

/-- The linear interpolation of field `f` between consecutive raw samples
`a` and `b` evaluated at time `t` — the value `np.interp` produces between
two bracketing samples. -/
def lerpField (a b : RawSample) (f : RawSample → ℚ) (t : ℚ) : ℚ :=
  f a + (f b - f a) * (t - a.timeSec) / (b.timeSec - a.timeSec)

/-! Concrete inputs used to instantiate and to refute claims. -/

/-- A car whose recorded time range is [5, 10]. -/
def c1Samples : List RawSample :=
  [⟨5, 1, 2, 100, 3, 0, 40, 1⟩, ⟨10, 7, 8, 120, 4, 0, 90, 1⟩]

/-- The spec's scenario: samples at t=0 (x=0, y=0) and t=10 (x=100, y=0). -/
def scenarioSamples : List RawSample :=
  [⟨0, 0, 0, 0, 1, 0, 0, 1⟩, ⟨10, 100, 0, 0, 1, 0, 700, 1⟩]

/-- A car whose gear and DRS change between its two samples. -/
def gearSamples : List RawSample :=
  [⟨0, 0, 0, 100, 3, 0, 0, 1⟩, ⟨10, 100, 0, 100, 5, 8, 700, 1⟩]

/-- A car's resampled position at grid index `i` is undefined when the row
is missing or either coordinate is the NaN fill value. -/
def positionUndefined (track : List ResampledRow) (i : ℕ) : Prop :=
  ∀ row, track[i]? = some row → (row.x = none ∨ row.y = none)

/-- A car recorded on lap 3, at small within-lap distance. -/
def c3CarA : List RawSample :=
  [⟨0, 1, 1, 100, 3, 0, 100, 3⟩, ⟨10, 2, 2, 100, 3, 0, 200, 3⟩]

/-- A car recorded on lap 1, at large within-lap distance. -/
def c3CarB : List RawSample :=
  [⟨0, 5, 5, 150, 4, 0, 500, 1⟩, ⟨10, 6, 6, 150, 4, 0, 600, 1⟩]

/-- Two-car track set for the leaderboard-ordering counterexample. -/
def c3Tracks : List (String × List ResampledRow) :=
  [("A", resampleCar c3CarA [0]), ("B", resampleCar c3CarB [0])]

/-- Track set where car A (recorded on [5, 10]) is undefined at the grid
time 0 while car B is defined there. -/
def c4Tracks : List (String × List ResampledRow) :=
  [("A", resampleCar c1Samples [0]), ("B", resampleCar scenarioSamples [0])]

/-- Focus car "A": speed 100, gear 3, DRS 0 throughout. -/
def c6SamplesA : List RawSample :=
  [⟨0, 0, 0, 100, 3, 0, 0, 1⟩, ⟨10, 100, 0, 100, 3, 0, 700, 1⟩]

/-- The same car as `c6SamplesA` except for its gear (7) and DRS code (14). -/
def c6SamplesB : List RawSample :=
  [⟨0, 0, 0, 100, 7, 14, 0, 1⟩, ⟨10, 100, 0, 100, 7, 14, 700, 1⟩]

def c6TracksA : List (String × List ResampledRow) := [("A", resampleCar c6SamplesA [5])]

def c6TracksB : List (String × List ResampledRow) := [("A", resampleCar c6SamplesB [5])]

/-- A roster where driver "A" has completed only lap 1 (with no usable
telemetry) and driver "B" has no laps at all. -/
def c8Drivers : List DriverEntry :=
  [⟨"A", [⟨1, 0, []⟩]⟩, ⟨"B", []⟩]

/-- The animation the pipeline produces when every car has been excluded:
one frame per grid entry of the focus lap's grid, with no car data. -/
def c8Anim : Animation := assemble (buildFrames [] "A" (lapGrid 0))

/-- A car with usable telemetry spanning the whole lap grid. -/
def c9Samples : List RawSample :=
  [⟨0, 0, 0, 100, 3, 0, 0, 1⟩, ⟨2, 10, 10, 100, 3, 0, 50, 1⟩]

def c9Drivers : List DriverEntry := [⟨"A", [⟨1, 0, c9Samples⟩]⟩]

/-- The animation generated for `c9Drivers` (the error branch is never
taken; the default is only a type-level fallback). -/
def c9Anim : Animation :=
  ((generateReplay c9Drivers "A" 1).toOption).getD ⟨[], []⟩

/-- Eleven cars with identical telemetry: at any common grid time they are
all tied at exactly the same distance. -/
def c10Tracks : List (String × List ResampledRow) :=
  ["D01", "D02", "D03", "D04", "D05", "D06", "D07", "D08", "D09", "D10",
   "D11"].map (fun n => (n, resampleCar scenarioSamples [5]))

/-- Two cars tied at the same distance. -/
def c10PairTracks : List (String × List ResampledRow) :=
  [("A", resampleCar scenarioSamples [5]), ("B", resampleCar scenarioSamples [5])]

section Helpers

lemma chain'_lt_getElem {α : Type} (f : α → ℚ) {l : List α}
    (h : l.Chain' (fun a b => f a < f b)) {i j : ℕ} (hij : i < j)
    (hj : j < l.length) : f l[i] < f l[j] := by
  haveI : IsTrans α (fun a b => f a < f b) := ⟨fun _ _ _ => lt_trans⟩
  rw [List.chain'_iff_pairwise] at h
  exact List.pairwise_iff_getElem.mp h i j (lt_trans hij hj) hj hij

lemma chain'_le_getElem {α : Type} (f : α → ℚ) {l : List α}
    (h : l.Chain' (fun a b => f a < f b)) {i j : ℕ} (hij : i ≤ j)
    (hj : j < l.length) : f l[i] ≤ f l[j] := by
  rcases Nat.lt_or_ge i j with hlt | hge
  · exact le_of_lt (chain'_lt_getElem f h hlt hj)
  · have : i = j := le_antisymm hij hge
    subst this; exact le_refl _

lemma head_le_getLast {α : Type} (f : α → ℚ) {l : List α} {a b : α}
    (h : l.Chain' (fun x y => f x < f y)) (ha : l.head? = some a)
    (hb : l.getLast? = some b) : f a ≤ f b := by
  have hne : l ≠ [] := by rintro rfl; simp at ha
  have hlen : 0 < l.length := List.length_pos.mpr hne
  rw [List.head?_eq_getElem?, List.getElem?_eq_getElem hlen] at ha
  have hlast : l.length - 1 < l.length := by omega
  rw [List.getLast?_eq_getElem?, List.getElem?_eq_getElem hlast] at hb
  have ha2 : a = l[0] := by injection ha with h2; exact h2.symm
  have hb2 : b = l[l.length - 1] := by injection hb with h2; exact h2.symm
  subst ha2; subst hb2
  exact chain'_le_getElem f h (by omega) hlast

lemma npInterp_eq_left {pts : List (ℚ × ℚ)} {p : ℚ × ℚ} {l r : Option ℚ}
    {t : ℚ} (hh : pts.head? = some p) (ht : t < p.1) :
    npInterp pts l r t = l := by
  have hne : pts ≠ [] := by rintro rfl; simp at hh
  obtain ⟨q, hq⟩ := List.getLast?_isSome.mpr hne |> Option.isSome_iff_exists.mp
  unfold npInterp
  rw [hh, hq]
  simp [ht]

lemma npInterp_eq_right {pts : List (ℚ × ℚ)} {p q : ℚ × ℚ} {l r : Option ℚ}
    {t : ℚ} (hh : pts.head? = some p) (hq : pts.getLast? = some q)
    (hpq : p.1 ≤ q.1) (ht : q.1 < t) :
    npInterp pts l r t = r := by
  unfold npInterp
  rw [hh, hq]
  have h1 : ¬ t < p.1 := not_lt.mpr (le_trans hpq (le_of_lt ht))
  simp [h1, ht]

lemma npInterp_eq_core {pts : List (ℚ × ℚ)} {p q : ℚ × ℚ} {l r : Option ℚ}
    {t : ℚ} (hh : pts.head? = some p) (hq : pts.getLast? = some q)
    (h1 : p.1 ≤ t) (h2 : t ≤ q.1) :
    npInterp pts l r t = some (interpCore pts t) := by
  unfold npInterp
  rw [hh, hq]
  simp [not_lt.mpr h1, not_lt.mpr h2]

lemma interpCore_bracket : ∀ (pts : List (ℚ × ℚ)) (j : ℕ) (t : ℚ),
    pts.Chain' (fun a b => a.1 < b.1) → (hj : j + 1 < pts.length) →
    pts[j].1 ≤ t → t ≤ pts[j + 1].1 →
    interpCore pts t =
      pts[j].2 + (pts[j + 1].2 - pts[j].2) * (t - pts[j].1) / (pts[j + 1].1 - pts[j].1)
  | [], j, t, _, hj, _, _ => by simp at hj
  | [p], j, t, _, hj, _, _ => by simp at hj
  | p :: q :: rest, 0, t, hs, hj, h1, h2 => by
    simp only [List.getElem_cons_zero, List.getElem_cons_succ] at h1 h2 ⊢
    simp [interpCore, h2]
  | p :: q :: rest, Nat.succ k, t, hs, hj, h1, h2 => by
    have hpq : p.1 < q.1 := (List.chain'_cons.mp hs).1
    have hst : (q :: rest).Chain' (fun a b => a.1 < b.1) := (List.chain'_cons.mp hs).2
    have hj2 : k + 1 < (q :: rest).length := by
      simp only [List.length_cons] at hj ⊢; omega
    simp only [List.getElem_cons_succ] at h1 h2 ⊢
    by_cases hle : t ≤ q.1
    · -- then t is exactly q.1 and the bracket starts at q
      rcases k with _ | m
      · have hq1 : (q :: rest)[0].1 = q.1 := rfl
        rw [hq1] at h1
        have hteq : t = q.1 := le_antisymm hle h1
        subst hteq
        have hne : q.1 - p.1 ≠ 0 := sub_ne_zero.mpr (ne_of_gt hpq)
        have hlhs : interpCore (p :: q :: rest) q.1 =
            p.2 + (q.2 - p.2) * (q.1 - p.1) / (q.1 - p.1) := by
          simp [interpCore]
        rw [hlhs, mul_div_assoc, div_self hne, mul_one]
        simp only [List.getElem_cons_zero, List.getElem_cons_succ]
        simp [sub_self]
      · exfalso
        have hq1 : q.1 < (q :: rest)[m + 1].1 :=
          chain'_lt_getElem Prod.fst hst (Nat.succ_pos m)
            (by simp only [List.length_cons] at hj2 ⊢; omega)
        exact absurd hle (not_le.mpr (lt_of_lt_of_le hq1 h1))
    · have hcore : interpCore (p :: q :: rest) t = interpCore (q :: rest) t := by
        simp [interpCore, hle]
      rw [hcore]
      exact interpCore_bracket (q :: rest) k t hst hj2 h1 h2

lemma strictTimes_chain {samples : List RawSample} (hs : StrictTimes samples) :
    samples.Chain' (fun a b => a.timeSec < b.timeSec) := by
  unfold StrictTimes times at hs
  rwa [List.chain'_map] at hs

lemma chain'_map_fst (samples : List RawSample) (f : RawSample → ℚ)
    (hs : StrictTimes samples) :
    (samples.map fun s => (s.timeSec, f s)).Chain' (fun a b => a.1 < b.1) := by
  rw [List.chain'_map]
  exact strictTimes_chain hs

lemma npInterp_field_interior (samples : List RawSample) (f : RawSample → ℚ)
    (l r : Option ℚ) (t : ℚ) (hs : StrictTimes samples) (j : ℕ)
    (hj : j + 1 < samples.length)
    (h1 : samples[j].timeSec ≤ t) (h2 : t ≤ samples[j + 1].timeSec) :
    npInterp (samples.map fun s => (s.timeSec, f s)) l r t =
      some (lerpField samples[j] samples[j + 1] f t) := by
  have hchain := chain'_map_fst samples f hs
  have hne : samples ≠ [] := by rintro rfl; simp at hj
  have hlen : (samples.map fun s => (s.timeSec, f s)).length = samples.length := by simp
  have hlen0 : 0 < samples.length := by omega
  have hlast : samples.length - 1 < samples.length := by omega
  have hp : (samples.map fun s => (s.timeSec, f s)).head? =
      some (samples[0].timeSec, f samples[0]) := by
    rw [List.head?_map, List.head?_eq_getElem?, List.getElem?_eq_getElem hlen0]; rfl
  have hq : (samples.map fun s => (s.timeSec, f s)).getLast? =
      some (samples[samples.length - 1].timeSec, f (samples[samples.length - 1])) := by
    rw [List.getLast?_map, List.getLast?_eq_getElem?, List.getElem?_eq_getElem hlast]; rfl
  have hjlt : j < samples.length := by omega
  have hple : samples[0].timeSec ≤ t :=
    le_trans (chain'_le_getElem (·.timeSec) (strictTimes_chain hs) (Nat.zero_le j) hjlt) h1
  have hij2 : j + 1 ≤ samples.length - 1 := by omega
  have hqge : t ≤ samples[samples.length - 1].timeSec :=
    le_trans h2 (chain'_le_getElem (·.timeSec) (strictTimes_chain hs) hij2 hlast)
  rw [npInterp_eq_core hp hq hple hqge,
    interpCore_bracket _ j t hchain (by omega)
      (by simpa using h1) (by simpa using h2)]
  simp [lerpField]

lemma npInterp_field_before (samples : List RawSample) (f : RawSample → ℚ)
    (l r : Option ℚ) (t : ℚ) (s0 : RawSample)
    (hh : samples.head? = some s0) (ht : t < s0.timeSec) :
    npInterp (samples.map fun s => (s.timeSec, f s)) l r t = l := by
  have hp : (samples.map fun s => (s.timeSec, f s)).head? = some (s0.timeSec, f s0) := by
    rw [List.head?_map, hh]; rfl
  exact npInterp_eq_left hp ht

lemma npInterp_field_after (samples : List RawSample) (f : RawSample → ℚ)
    (l r : Option ℚ) (t : ℚ) (sl : RawSample) (hs : StrictTimes samples)
    (hl : samples.getLast? = some sl) (ht : sl.timeSec < t) :
    npInterp (samples.map fun s => (s.timeSec, f s)) l r t = r := by
  have hne : samples ≠ [] := by rintro rfl; simp at hl
  obtain ⟨s0, hh⟩ := Option.isSome_iff_exists.mp (List.head?_isSome.mpr hne)
  have hp : (samples.map fun s => (s.timeSec, f s)).head? = some (s0.timeSec, f s0) := by
    rw [List.head?_map, hh]; rfl
  have hq : (samples.map fun s => (s.timeSec, f s)).getLast? = some (sl.timeSec, f sl) := by
    rw [List.getLast?_map, hl]; rfl
  exact npInterp_eq_right hp hq
    (head_le_getLast (·.timeSec) (strictTimes_chain hs) hh hl) ht

lemma countP_le_eq : ∀ (ts : List ℚ) (t : ℚ), ts.Chain' (· < ·) →
    ∀ (j : ℕ) (hj : j < ts.length), ts[j] ≤ t →
    (∀ (k : ℕ) (hk : k < ts.length), ts[k] ≤ t → k ≤ j) →
    ts.countP (fun u => decide (u ≤ t)) = j + 1
  | [], t, _, j, hj, _, _ => by simp at hj
  | a :: rest, t, hs, j, hj, h1, hmax => by
    have ha : a ≤ t := by
      have h0 : (a :: rest)[0] ≤ (a :: rest)[j] :=
        chain'_le_getElem (fun x => x) hs (Nat.zero_le j) hj
      exact le_trans h0 h1
    rw [List.countP_cons_of_pos _ _ (by simpa using ha)]
    rcases j with _ | k
    · have hz : rest.countP (fun u => decide (u ≤ t)) = 0 := by
        rw [List.countP_eq_zero]
        intro u hu
        obtain ⟨m, hm, hmu⟩ := List.mem_iff_getElem.mp hu
        simp only [decide_eq_true_eq]
        intro hut
        have := hmax (m + 1) (by simp only [List.length_cons]; omega)
          (by simpa [hmu] using hut)
        omega
      simp [hz]
    · have hst : rest.Chain' (· < ·) := hs.tail
      have ih := countP_le_eq rest t hst k
        (by simp only [List.length_cons] at hj; omega)
        (by simpa using h1)
        (fun m hm hmt => by
          have := hmax (m + 1) (by simp only [List.length_cons]; omega)
            (by simpa using hmt)
          omega)
      omega

lemma countP_le_eq_zero (ts : List ℚ) (t : ℚ) (hs : ts.Chain' (· < ·))
    (a : ℚ) (hh : ts.head? = some a) (ht : t < a) :
    ts.countP (fun u => decide (u ≤ t)) = 0 := by
  rw [List.countP_eq_zero]
  intro u hu
  obtain ⟨m, hm, hmu⟩ := List.mem_iff_getElem.mp hu
  simp only [decide_eq_true_eq]
  intro hut
  have hne : ts ≠ [] := by rintro rfl; simp at hh
  have hlen0 : 0 < ts.length := List.length_pos.mpr hne
  rw [List.head?_eq_getElem?, List.getElem?_eq_getElem hlen0] at hh
  have ha0 : a = ts[0] := by injection hh with h2; exact h2.symm
  have : ts[0] ≤ ts[m] := chain'_le_getElem (fun x => x) hs (Nat.zero_le m) hm
  rw [← ha0, hmu] at this
  exact absurd (lt_of_lt_of_le ht this) (not_lt.mpr hut)

lemma discreteIdx_eq (ts : List ℚ) (t : ℚ) (hs : ts.Chain' (· < ·)) (j : ℕ)
    (hj : j < ts.length) (h1 : ts[j] ≤ t)
    (hmax : ∀ (k : ℕ) (hk : k < ts.length), ts[k] ≤ t → k ≤ j) :
    discreteIdx ts t = j := by
  unfold discreteIdx
  rw [countP_le_eq ts t hs j hj h1 hmax]
  omega

lemma discreteIdx_before (ts : List ℚ) (t : ℚ) (hs : ts.Chain' (· < ·))
    (a : ℚ) (hh : ts.head? = some a) (ht : t < a) :
    discreteIdx ts t = 0 := by
  unfold discreteIdx
  rw [countP_le_eq_zero ts t hs a hh ht]
  simp

lemma map_getD_eq {α : Type} (samples : List RawSample) (f : RawSample → α)
    (j : ℕ) (d : α) (hj : j < samples.length) :
    (samples.map f).getD j d = f samples[j] := by
  rw [List.getD_eq_getElem?_getD, List.getElem?_map, List.getElem?_eq_getElem hj]
  rfl

lemma discreteIdx_times_eq (samples : List RawSample) (t : ℚ) (hs : StrictTimes samples)
    (j : ℕ) (hj : j < samples.length) (h1 : samples[j].timeSec ≤ t)
    (hmax : ∀ (k : ℕ) (hk : k < samples.length), samples[k].timeSec ≤ t → k ≤ j) :
    discreteIdx (times samples) t = j := by
  have hlen : (times samples).length = samples.length := by simp [times]
  apply discreteIdx_eq (times samples) t hs j (by omega)
  · simp only [times, List.getElem_map]
    exact h1
  · intro k hk hkt
    simp only [times, List.getElem_map] at hkt
    exact hmax k (by omega) hkt

end Helpers

/-- **C1** (amended).  For every grid time bracketed by two consecutive raw
samples, the resampled x, y, distance, and speed equal the linear
interpolation of the bracketing samples.  For grid times strictly before the
recorded range, x and y are undefined but distance resolves to the defined
value 0 (the `left=0` fill of app.py line 863) and speed resolves to 0; for
grid times strictly after the recorded range, x, y, and distance are
undefined and speed resolves to 0.  The original claim — that distance is
undefined on both sides — fails on the before-range side. -/
theorem resampled_continuous_fields (samples : List RawSample)
    (hs : StrictTimes samples) (t : ℚ) :
    (∀ (j : ℕ) (hj : j + 1 < samples.length),
      samples[j].timeSec ≤ t → t ≤ samples[j + 1].timeSec →
      (resampleAt samples t).x = some (lerpField samples[j] samples[j + 1] (·.x) t) ∧
      (resampleAt samples t).y = some (lerpField samples[j] samples[j + 1] (·.y) t) ∧
      (resampleAt samples t).distance = some (lerpField samples[j] samples[j + 1] (·.distance) t) ∧
      (resampleAt samples t).speed = some (lerpField samples[j] samples[j + 1] (·.speed) t)) ∧
    (∀ s0, samples.head? = some s0 → t < s0.timeSec →
      (resampleAt samples t).x = none ∧ (resampleAt samples t).y = none ∧
      (resampleAt samples t).distance = some 0 ∧ (resampleAt samples t).speed = some 0) ∧
    (∀ sl, samples.getLast? = some sl → sl.timeSec < t →
      (resampleAt samples t).x = none ∧ (resampleAt samples t).y = none ∧
      (resampleAt samples t).distance = none ∧ (resampleAt samples t).speed = some 0) := by
  refine ⟨fun j hj h1 h2 => ⟨?_, ?_, ?_, ?_⟩, fun s0 hh ht => ⟨?_, ?_, ?_, ?_⟩,
    fun sl hl ht => ⟨?_, ?_, ?_, ?_⟩⟩
  · exact npInterp_field_interior samples (fun s => s.x) none none t hs j hj h1 h2
  · exact npInterp_field_interior samples (fun s => s.y) none none t hs j hj h1 h2
  · exact npInterp_field_interior samples (fun s => s.distance) (some 0) none t hs j hj h1 h2
  · exact npInterp_field_interior samples (fun s => s.speed) (some 0) (some 0) t hs j hj h1 h2
  · exact npInterp_field_before samples (fun s => s.x) none none t s0 hh ht
  · exact npInterp_field_before samples (fun s => s.y) none none t s0 hh ht
  · exact npInterp_field_before samples (fun s => s.distance) (some 0) none t s0 hh ht
  · exact npInterp_field_before samples (fun s => s.speed) (some 0) (some 0) t s0 hh ht
  · exact npInterp_field_after samples (fun s => s.x) none none t sl hs hl ht
  · exact npInterp_field_after samples (fun s => s.y) none none t sl hs hl ht
  · exact npInterp_field_after samples (fun s => s.distance) (some 0) none t sl hs hl ht
  · exact npInterp_field_after samples (fun s => s.speed) (some 0) (some 0) t sl hs hl ht

/-- **C1** counterexample.  For the car recorded on [5, 10], the grid time 0
is outside the recorded range on the left: x and y resolve to undefined as
the claim states, but distance resolves to the defined value 0 — not to
undefined as the claim requires. -/
theorem c1_distance_defined_before_range :
    (resampleAt c1Samples 0).x = none ∧ (resampleAt c1Samples 0).y = none ∧
    (resampleAt c1Samples 0).distance = some 0 := by
  refine ⟨?_, ?_, ?_⟩ <;> with_unfolding_all rfl

/-- **C1** witness: the spec's own scenario — samples at t=0 (x=0) and t=10
(x=100), queried at the grid time 5 — yields x = 50 through
`resampled_continuous_fields`. -/
theorem resampled_continuous_fields_witness :
    StrictTimes scenarioSamples ∧ (resampleAt scenarioSamples 5).x = some 50 := by
  have hs : StrictTimes scenarioSamples := by
    unfold StrictTimes times scenarioSamples
    simp
  refine ⟨hs, ?_⟩
  have h := ((resampled_continuous_fields scenarioSamples hs 5).1 0 (by decide)
    (by with_unfolding_all decide) (by with_unfolding_all decide)).1
  rw [h]
  with_unfolding_all rfl

/-- **C2** (amended).  Gear and DRS follow last-observed-value semantics: at
any grid time at or after some sample time, they equal the corresponding
fields of the most recent raw sample at or before that time; at a grid time
preceding the first sample they are clamped to the first sample's values.
The original claim also asserted this for lap_number, but lap_number is not
resampled at all (see `c2_lapNumber_not_resampled`). -/
theorem resampled_discrete_fields (samples : List RawSample)
    (hs : StrictTimes samples) (t : ℚ) :
    (∀ (j : ℕ) (hj : j < samples.length),
      samples[j].timeSec ≤ t →
      (∀ (k : ℕ) (hk : k < samples.length), samples[k].timeSec ≤ t → k ≤ j) →
      (resampleAt samples t).gear = samples[j].gear ∧
      (resampleAt samples t).drs = samples[j].drs) ∧
    (∀ s0, samples.head? = some s0 → t < s0.timeSec →
      (resampleAt samples t).gear = s0.gear ∧ (resampleAt samples t).drs = s0.drs) := by
  constructor
  · intro j hj h1 hmax
    have hidx : discreteIdx (times samples) t = j :=
      discreteIdx_times_eq samples t hs j hj h1 hmax
    constructor
    · show (samples.map (·.gear)).getD (discreteIdx (times samples) t) 0 = _
      rw [hidx]
      exact map_getD_eq samples (·.gear) j 0 hj
    · show (samples.map (·.drs)).getD (discreteIdx (times samples) t) 0 = _
      rw [hidx]
      exact map_getD_eq samples (·.drs) j 0 hj
  · intro s0 hh ht
    have hne : samples ≠ [] := by rintro rfl; simp at hh
    have hlen0 : 0 < samples.length := List.length_pos.mpr hne
    have hh0 : (times samples).head? = some s0.timeSec := by
      unfold times
      rw [List.head?_map, hh]
      rfl
    have hidx : discreteIdx (times samples) t = 0 :=
      discreteIdx_before (times samples) t hs s0.timeSec hh0 ht
    have hs0 : samples[0] = s0 := by
      rw [List.head?_eq_getElem?, List.getElem?_eq_getElem hlen0] at hh
      injection hh
    constructor
    · show (samples.map (·.gear)).getD (discreteIdx (times samples) t) 0 = _
      rw [hidx, map_getD_eq samples (·.gear) 0 0 hlen0, hs0]
    · show (samples.map (·.drs)).getD (discreteIdx (times samples) t) 0 = _
      rw [hidx, map_getD_eq samples (·.drs) 0 0 hlen0, hs0]

/-- **C2** counterexample.  The per-car resampled DataFrame built at app.py
lines 871-874 has columns X, Y, Distance, Speed, nGear, DRS only: lap_number
is not among the resampled fields at all, so no resampled lap_number value
exists to satisfy the claimed last-observed-value semantics. -/
theorem c2_lapNumber_not_resampled :
    "LapNumber" ∉ interpolatedColumns ∧
    "nGear" ∈ interpolatedColumns ∧ "DRS" ∈ interpolatedColumns := by
  refine ⟨?_, ?_, ?_⟩ <;> decide

/-- **C2** witness: for the car in `gearSamples` (gear 3 then gear 5 at
t=10), the grid time 9 takes the gear of the sample at t=0 (most recent at
or before), and the grid time -1 (before the first sample) is clamped to
the first sample's gear. -/
theorem resampled_discrete_fields_witness :
    StrictTimes gearSamples ∧
    (resampleAt gearSamples 9).gear = 3 ∧ (resampleAt gearSamples (-1)).gear = 3 := by
  have hs : StrictTimes gearSamples := by
    unfold StrictTimes times gearSamples
    simp
  refine ⟨hs, ?_, ?_⟩
  · have h := ((resampled_discrete_fields gearSamples hs 9).1 0 (by decide)
      (by with_unfolding_all decide) (by with_unfolding_all decide)).1
    rw [h]
    with_unfolding_all rfl
  · have h := ((resampled_discrete_fields gearSamples hs (-1)).2 ⟨0, 0, 0, 100, 3, 0, 0, 1⟩
      (by with_unfolding_all rfl) (by with_unfolding_all decide)).1
    rw [h]

section FrameLemmas

lemma buildFrame_positions (tracks : List (String × List ResampledRow))
    (focus : String) (i : ℕ) (t : ℚ) :
    (buildFrame tracks focus i t).positions =
      withGaps (sortPositions (presentEntries tracks i)) := rfl

lemma buildFrame_markers (tracks : List (String × List ResampledRow))
    (focus : String) (i : ℕ) (t : ℚ) :
    (buildFrame tracks focus i t).markers = frameMarkers tracks i := rfl

lemma buildFrame_leaderboard (tracks : List (String × List ResampledRow))
    (focus : String) (i : ℕ) (t : ℚ) :
    (buildFrame tracks focus i t).leaderboard =
      ((buildFrame tracks focus i t).positions.take 10).map
        (fun p => (p.driver, labelOf p)) := rfl

lemma buildFrame_telSnap (tracks : List (String × List ResampledRow))
    (focus : String) (i : ℕ) (t : ℚ) :
    (buildFrame tracks focus i t).telSnap =
      (if (buildFrame tracks focus i t).positions.any (fun p => p.driver == focus) then
        ((buildFrame tracks focus i t).positions.find? (fun p => p.driver == focus)).map
          (fun p => { driver := focus, speed := p.speed, gap := p.gap })
      else none) := rfl

lemma assemble_frames (fs : List Frame) : (assemble fs).frames = fs := rfl

lemma foldl_append_map {α β : Type} (f : α → β) :
    ∀ (l : List α) (acc : List β),
      l.foldl (fun acc x => acc ++ [f x]) acc = acc ++ l.map f
  | [], acc => by simp
  | x :: xs, acc => by
    rw [List.foldl_cons, foldl_append_map f xs (acc ++ [f x])]
    simp

lemma buildFrames_eq_map (tracks : List (String × List ResampledRow))
    (focus : String) (grid : List ℚ) :
    buildFrames tracks focus grid =
      grid.enum.map (fun it => buildFrame tracks focus it.1 it.2) := by
  unfold buildFrames
  rw [foldl_append_map]
  simp

lemma buildFrame_nil (focus : String) (i : ℕ) (t : ℚ) :
    buildFrame [] focus i t =
      { time := t, markers := [], positions := [], leaderboard := [], telSnap := none } := rfl

lemma sortPositions_perm (l : List PosEntry) : (sortPositions l).Perm l :=
  List.perm_insertionSort lbRel l

lemma sortPositions_sorted (l : List PosEntry) :
    (sortPositions l).Pairwise lbRel := by
  have h := List.sorted_insertionSort lbRel l
  exact h

lemma mem_withGaps {l : List PosEntry} {p : PosEntry} (hp : p ∈ withGaps l) :
    ∃ q ∈ l, p.driver = q.driver ∧ p.distance = q.distance ∧ p.speed = q.speed := by
  cases l with
  | nil => simp [withGaps] at hp
  | cons a rest =>
    unfold withGaps at hp
    rw [List.mem_map] at hp
    obtain ⟨q, hq, rfl⟩ := hp
    exact ⟨q, hq, rfl, rfl, rfl⟩

lemma withGaps_head {l : List PosEntry} {a : PosEntry} (hl : l.head? = some a) :
    (withGaps l).head? =
      some { a with gap := (a.distance - a.distance) / 200 } := by
  cases l with
  | nil => simp at hl
  | cons b rest =>
    have hb : b = a := by injection hl
    subst hb
    rfl

lemma withGaps_gap_eq {l : List PosEntry} {a : PosEntry} (hl : l.head? = some a)
    {p : PosEntry} (hp : p ∈ withGaps l) :
    p.gap = (a.distance - p.distance) / 200 := by
  cases l with
  | nil => simp at hl
  | cons b rest =>
    have hb : b = a := by injection hl
    subst hb
    unfold withGaps at hp
    rw [List.mem_map] at hp
    obtain ⟨q, hq, rfl⟩ := hp
    rfl

lemma carContrib_none {i : ℕ} {name : String} {track : List ResampledRow}
    (h : track[i]? = none) : carContrib i name track = ([], []) := by
  unfold carContrib
  rw [h]

lemma carContrib_some {i : ℕ} {name : String} {track : List ResampledRow}
    {row : ResampledRow} (h : track[i]? = some row) :
    carContrib i name track =
      (if (row.x.isSome && row.y.isSome) = true then
        (carMarkers track i row, [⟨name, row.distance.getD 0, row.speed.getD 0, 0⟩])
      else ([], [])) := by
  unfold carContrib
  rw [h]

lemma mem_presentEntries {tracks : List (String × List ResampledRow)} {i : ℕ}
    {e : PosEntry} (he : e ∈ presentEntries tracks i) :
    ∃ nt ∈ tracks, nt.1 = e.driver ∧
      ∃ row, nt.2[i]? = some row ∧ row.x.isSome = true ∧ row.y.isSome = true := by
  unfold presentEntries at he
  rw [List.mem_flatMap] at he
  obtain ⟨nt, hnt, hmem⟩ := he
  refine ⟨nt, hnt, ?_⟩
  rcases h : nt.2[i]? with _ | row
  · rw [carContrib_none h] at hmem
    simp at hmem
  · rw [carContrib_some h] at hmem
    by_cases hxy : (row.x.isSome && row.y.isSome) = true
    · rw [if_pos hxy] at hmem
      obtain ⟨hx, hy⟩ : row.x.isSome = true ∧ row.y.isSome = true := by simpa using hxy
      have he2 : e = (⟨nt.1, row.distance.getD 0, row.speed.getD 0, 0⟩ : PosEntry) := by
        simpa using hmem
      exact ⟨by rw [he2], row, rfl, hx, hy⟩
    · rw [if_neg hxy] at hmem
      exact absurd hmem (List.not_mem_nil e)

lemma npInterp_isSome_congr (samples : List RawSample) (f g : RawSample → ℚ) (t : ℚ) :
    (npInterp (samples.map fun s => (s.timeSec, f s)) none none t).isSome =
      (npInterp (samples.map fun s => (s.timeSec, g s)) none none t).isSome := by
  unfold npInterp
  rw [List.head?_map, List.head?_map, List.getLast?_map, List.getLast?_map]
  cases samples.head? with
  | none => rfl
  | some s0 =>
    cases samples.getLast? with
    | none => rfl
    | some sl =>
      simp only [Option.map_some']
      by_cases h1 : t < s0.timeSec
      · simp [h1]
      · by_cases h2 : sl.timeSec < t
        · simp [h1, h2]
        · simp [h1, h2]

lemma resampleCar_xy (samples : List RawSample) (grid : List ℚ) :
    ∀ r ∈ resampleCar samples grid, r.x.isSome = r.y.isSome := by
  intro r hr
  unfold resampleCar at hr
  rw [List.mem_map] at hr
  obtain ⟨u, _, rfl⟩ := hr
  exact npInterp_isSome_congr samples (fun s => s.x) (fun s => s.y) u

lemma frameMarkers_defined (tracks : List (String × List ResampledRow)) (i : ℕ)
    (hinv : ∀ nt ∈ tracks, ∀ r ∈ nt.2, r.x.isSome = r.y.isSome) :
    ∀ m ∈ frameMarkers tracks i, m.1.isSome = true ∧ m.2.isSome = true := by
  intro m hm
  unfold frameMarkers at hm
  rw [List.mem_flatMap] at hm
  obtain ⟨nt, hnt, hm⟩ := hm
  rcases hrow : nt.2[i]? with _ | row
  · rw [carContrib_none hrow] at hm
    simp at hm
  · rw [carContrib_some hrow] at hm
    by_cases hxy : (row.x.isSome && row.y.isSome) = true
    · rw [if_pos hxy] at hm
      obtain ⟨hx, hy⟩ : row.x.isSome = true ∧ row.y.isSome = true := by simpa using hxy
      unfold carMarkers at hm
      rcases List.mem_cons.mp hm with heq | hm
      · rw [heq]
        exact ⟨hx, hy⟩
      · rw [List.mem_filterMap] at hm
        obtain ⟨j, _, hsome⟩ := hm
        by_cases hji : j + 1 ≤ i
        · rw [if_pos hji] at hsome
          rcases hprev : nt.2[i - (j + 1)]? with _ | prev
          · rw [hprev] at hsome
            have hsome2 : (none : Option (Option ℚ × Option ℚ)) = some m := hsome
            exact absurd hsome2 (by simp)
          · rw [hprev] at hsome
            have hsome2 : (if prev.x.isSome = true then some ((prev.x, prev.y)) else none)
                = some m := hsome
            by_cases hpx : prev.x.isSome = true
            · rw [if_pos hpx] at hsome2
              have hmprev : m = (prev.x, prev.y) := by injection hsome2 with h2; rw [← h2]
              have hpy : prev.y.isSome = true := by
                rw [← hinv nt hnt prev (List.getElem?_mem hprev)]
                exact hpx
              rw [hmprev]
              exact ⟨hpx, hpy⟩
            · rw [if_neg hpx] at hsome2
              exact absurd hsome2 (by simp)
        · rw [if_neg hji] at hsome
          exact absurd hsome (by simp)
    · rw [if_neg hxy] at hm
      simp at hm

lemma carTrackFor_track {lapN : ℤ} {grid : List ℚ} {d : DriverEntry}
    {nt : String × List ResampledRow} (h : carTrackFor lapN grid d = some nt) :
    ∃ lp : LapInfo, nt.2 = resampleCar lp.telemetry grid := by
  unfold carTrackFor at h
  rcases hfind : d.laps.find? (fun lp => lp.lapNumber == lapN) with _ | lp
  · rw [hfind] at h
    exact absurd h (by simp)
  · rw [hfind] at h
    have h2 : (if lp.telemetry.isEmpty = true then none
        else some (d.name, resampleCar lp.telemetry grid)) = some nt := h
    by_cases he : lp.telemetry.isEmpty = true
    · rw [if_pos he] at h2
      exact absurd h2 (by simp)
    · rw [if_neg he] at h2
      injection h2 with h3
      exact ⟨lp, by rw [← h3]⟩

lemma generateReplay_ok {drivers : List DriverEntry} {focus : String} {lapN : ℤ}
    {a : Animation} (h : generateReplay drivers focus lapN = .ok a) :
    ∃ lap, (((drivers.find? (fun d => d.name == focus)).map (·.laps)).getD []).find?
        (fun l => l.lapNumber == lapN) = some lap ∧
      a = assemble (buildFrames (drivers.filterMap (carTrackFor lapN (lapGrid lap.lapTime)))
        focus (lapGrid lap.lapTime)) := by
  unfold generateReplay at h
  rcases hfind : (((drivers.find? (fun d => d.name == focus)).map (·.laps)).getD []).find?
      (fun l => l.lapNumber == lapN) with _ | lap
  · rw [hfind] at h
    have h2 : (Except.error { driver := focus, lap := lapN } :
        Except ReplayError Animation) = .ok a := h
    exact absurd h2 (by simp)
  · rw [hfind] at h
    refine ⟨lap, hfind, ?_⟩
    have h2 : (Except.ok (assemble (buildFrames
        (drivers.filterMap (carTrackFor lapN (lapGrid lap.lapTime)))
        focus (lapGrid lap.lapTime))) : Except ReplayError Animation) = .ok a := h
    injection h2 with h3
    rw [← h3]

lemma withGaps_map_key (l : List PosEntry) :
    (withGaps l).map (fun p => (p.driver, p.distance, p.speed)) =
      l.map (fun p => (p.driver, p.distance, p.speed)) := by
  cases l with
  | nil => rfl
  | cons a rest =>
    unfold withGaps
    rw [List.map_map]
    rfl

lemma withGaps_pairwise {l : List PosEntry} (h : l.Pairwise lbRel) :
    (withGaps l).Pairwise (fun p q => q.distance ≤ p.distance) := by
  cases l with
  | nil => exact List.Pairwise.nil
  | cons a rest =>
    unfold withGaps
    refine List.Pairwise.map _ ?_ h
    intro x y hxy
    exact hxy

end FrameLemmas

/-- **C3** (amended).  Each frame's leaderboard list contains exactly the
cars present at that frame, sorted by distance descending (the sort key of
app.py line 966 is `Distance` alone — lap number is not part of the key and
is not even carried in the entries); the full ranked list is computed even
though the displayed lines are truncated to the top 10. -/
theorem leaderboard_ranking (tracks : List (String × List ResampledRow))
    (focus : String) (i : ℕ) (t : ℚ) :
    ((buildFrame tracks focus i t).positions.map
        (fun p => (p.driver, p.distance, p.speed))).Perm
      ((presentEntries tracks i).map (fun p => (p.driver, p.distance, p.speed))) ∧
    (buildFrame tracks focus i t).positions.Pairwise
      (fun p q => q.distance ≤ p.distance) ∧
    (buildFrame tracks focus i t).leaderboard =
      ((buildFrame tracks focus i t).positions.take 10).map
        (fun p => (p.driver, labelOf p)) := by
  refine ⟨?_, ?_, buildFrame_leaderboard tracks focus i t⟩
  · rw [buildFrame_positions, withGaps_map_key]
    exact (sortPositions_perm (presentEntries tracks i)).map _
  · rw [buildFrame_positions]
    exact withGaps_pairwise (sortPositions_sorted (presentEntries tracks i))

/-- **C3** counterexample.  Car A is recorded on lap 3 and car B on lap 1;
under the claimed key (lap_number, distance) descending, A would rank
first, but the code ranks B first because it sorts by distance alone. -/
theorem c3_ranking_ignores_lap_number :
    (buildFrame c3Tracks "A" 0 0).positions.map (·.driver) = ["B", "A"] ∧
    (∀ s ∈ c3CarA, s.lapNumber = 3) ∧ (∀ s ∈ c3CarB, s.lapNumber = 1) := by
  refine ⟨by with_unfolding_all rfl, by decide, by decide⟩

/-- **C4** (confirmed).  A car whose resampled position is undefined at grid
index `i` is absent from frame `i` entirely: no entry of the ranked
positions list or of the displayed leaderboard carries its name, and its
contribution to the frame's marker arrays and position list is empty. -/
theorem car_absent_when_undefined (tracks : List (String × List ResampledRow))
    (focus name : String) (i : ℕ) (t : ℚ)
    (h : ∀ tr, (name, tr) ∈ tracks → positionUndefined tr i) :
    (∀ e ∈ (buildFrame tracks focus i t).positions, e.driver ≠ name) ∧
    (∀ line ∈ (buildFrame tracks focus i t).leaderboard, line.1 ≠ name) ∧
    (∀ tr, (name, tr) ∈ tracks → carContrib i name tr = ([], [])) := by
  have hpos : ∀ e ∈ (buildFrame tracks focus i t).positions, e.driver ≠ name := by
    intro e he heq
    rw [buildFrame_positions] at he
    obtain ⟨q, hq, hdr, _, _⟩ := mem_withGaps he
    have hq2 : q ∈ presentEntries tracks i :=
      ((sortPositions_perm (presentEntries tracks i)).mem_iff).mp hq
    obtain ⟨nt, hnt, hname, row, hrow, hx, hy⟩ := mem_presentEntries hq2
    have hn : nt.1 = name := by rw [hname, ← hdr, heq]
    have hnt2 : (name, nt.2) ∈ tracks := by
      rw [← hn]
      exact hnt
    rcases h nt.2 hnt2 row hrow with hx0 | hy0
    · rw [hx0] at hx
      simp at hx
    · rw [hy0] at hy
      simp at hy
  refine ⟨hpos, ?_, ?_⟩
  · intro line hline
    rw [buildFrame_leaderboard, List.mem_map] at hline
    obtain ⟨p, hp, rfl⟩ := hline
    exact hpos p ((List.take_sublist _ _).mem hp)
  · intro tr htr
    rcases hrow : tr[i]? with _ | row
    · exact carContrib_none hrow
    · rw [carContrib_some hrow]
      rcases h tr htr row hrow with hx0 | hy0
      · rw [if_neg (by simp [hx0])]
      · rw [if_neg (by simp [hy0])]

/-- **C4** witness: in `c4Tracks`, car A's recorded range is [5, 10] and the
only grid time is 0, so its position is undefined there; the theorem
yields that no position entry and no leaderboard line names A. -/
theorem car_absent_when_undefined_witness :
    ((buildFrame c4Tracks "B" 0 0).positions.all (fun e => !(e.driver == "A"))) = true ∧
    ((buildFrame c4Tracks "B" 0 0).leaderboard.all (fun line => !(line.1 == "A"))) = true := by
  have hund : ∀ tr, ("A", tr) ∈ c4Tracks → positionUndefined tr 0 := by
    intro tr htr row hrow
    have htr2 : tr = resampleCar c1Samples [0] := by
      rcases List.mem_cons.mp htr with h1 | h1
      · exact ((Prod.mk.injEq _ _ _ _).mp h1).2
      · rcases List.mem_cons.mp h1 with h2 | h2
        · have hab : ("A" : String) = "B" := congrArg Prod.fst h2
          exact absurd hab (by decide)
        · exact absurd h2 (List.not_mem_nil _)
    subst htr2
    rw [show (resampleCar c1Samples [0])[0]? = some (resampleAt c1Samples 0) from
      by with_unfolding_all rfl] at hrow
    injection hrow with h2
    left
    rw [← h2]
    with_unfolding_all rfl
  have h := car_absent_when_undefined c4Tracks "B" "A" 0 0 hund
  constructor
  · rw [List.all_eq_true]
    intro e he
    simpa using h.1 e he
  · rw [List.all_eq_true]
    intro line hline
    simpa using h.2.1 line hline

/-- **C5** (confirmed).  The frame list is built by a fold that only
appends: it equals the pointwise map of the pure function `buildFrame` over
the indexed grid, so frame `i` is a pure function of the resampled tracks,
the index `i` (with its grid time), and the focus car — no state flows
between frames, and identical inputs give identical frame sequences. -/
theorem frame_build_deterministic (tracks : List (String × List ResampledRow))
    (focus : String) (grid : List ℚ) :
    buildFrames tracks focus grid =
      grid.enum.map (fun it => buildFrame tracks focus it.1 it.2) ∧
    (∀ i : ℕ, (buildFrames tracks focus grid)[i]? =
      (grid[i]?).map (fun u => buildFrame tracks focus i u)) := by
  refine ⟨buildFrames_eq_map tracks focus grid, fun i => ?_⟩
  rw [buildFrames_eq_map, List.getElem?_map, List.getElem?_enum]
  cases grid[i]? <;> rfl

/-- **C6** (amended).  When the focus car is present at frame `i` — i.e.
its entry is found in the ranked positions — the frame's focus telemetry
overlay carries exactly the focus car's name, its speed, and its
approximate gap to the leader.  It carries neither a gear nor any
DRS-derived state (see `c6_snapshot_has_no_gear_or_drs`); gear and the raw
DRS code appear only in the per-car hover text. -/
theorem focus_snapshot_content (tracks : List (String × List ResampledRow))
    (focus : String) (i : ℕ) (t : ℚ) (p : PosEntry)
    (hp : (buildFrame tracks focus i t).positions.find?
      (fun q => q.driver == focus) = some p) :
    (buildFrame tracks focus i t).telSnap =
      some { driver := focus, speed := p.speed, gap := p.gap } := by
  rw [buildFrame_telSnap]
  have hmem := List.mem_of_find?_eq_some hp
  have hpred := List.find?_some hp
  rw [if_pos (List.any_eq_true.mpr ⟨p, hmem, hpred⟩), hp]
  rfl

/-- **C6** counterexample.  Two runs whose raw inputs differ only in the
focus car's gear (3 vs 7) and DRS code (0 vs 14) produce identical focus
snapshots, so the snapshot cannot contain the gear or any DRS-open/closed
state; it holds speed and gap only. -/
theorem c6_snapshot_has_no_gear_or_drs :
    (buildFrame c6TracksA "A" 0 0).telSnap =
      some { driver := "A", speed := 100, gap := 0 } ∧
    (buildFrame c6TracksB "A" 0 0).telSnap = (buildFrame c6TracksA "A" 0 0).telSnap ∧
    c6SamplesA.map (·.gear) ≠ c6SamplesB.map (·.gear) ∧
    c6SamplesA.map (·.drs) ≠ c6SamplesB.map (·.drs) := by
  exact ⟨by with_unfolding_all rfl, by with_unfolding_all rfl, by decide, by decide⟩

/-- **C6** witness: in `c6TracksA` the focus car A is present at frame 0
with speed 100 and gap 0, and `focus_snapshot_content` yields its
snapshot. -/
theorem focus_snapshot_content_witness :
    (buildFrame c6TracksA "A" 0 0).telSnap =
      some { driver := "A", speed := 100, gap := 0 } := by
  have h := focus_snapshot_content c6TracksA "A" 0 0 ⟨"A", 350, 100, 0⟩
    (by with_unfolding_all rfl)
  simpa using h

/-- **C7** (confirmed).  For a single-lap replay request whose focus car
has no row for the selected lap, the pipeline returns the fatal
per-request error carrying the driver and the lap (app.py lines 821-825)
— the `Except.error` result is produced before any resampling or frame
building, so no animation is built. -/
theorem lap_not_completed_fails (drivers : List DriverEntry) (focus : String)
    (lapN : ℤ)
    (h : ∀ d ∈ drivers, d.name = focus → ∀ l ∈ d.laps, l.lapNumber ≠ lapN) :
    generateReplay drivers focus lapN = .error { driver := focus, lap := lapN } := by
  unfold generateReplay
  rcases hfd : drivers.find? (fun d => d.name == focus) with _ | d
  · rw [hfd]
    rfl
  · rw [hfd]
    have hdmem := List.mem_of_find?_eq_some hfd
    have hdname : d.name = focus := by simpa using List.find?_some hfd
    have hnone : d.laps.find? (fun l => l.lapNumber == lapN) = none := by
      rw [List.find?_eq_none]
      intro l hl
      simpa using h d hdmem hdname l hl
    simp only [Option.map_some', Option.getD_some]
    rw [hnone]

/-- **C7** witness: driver A has completed only lap 1, so requesting lap 2
with focus A fails with the per-request error naming A and lap 2. -/
theorem lap_not_completed_fails_witness :
    generateReplay c8Drivers "A" 2 = .error { driver := "A", lap := 2 } :=
  lap_not_completed_fails c8Drivers "A" 2 (by decide)

/-- **C8** counterexample.  With every car excluded (focus car A completed
lap 1 but its telemetry is empty; B has no laps), the pipeline does not
fail: it returns `.ok` with an animation of 5 frames, each holding no
markers, no positions, no leaderboard lines and no focus snapshot — there
is no "no data to animate" error path in the code. -/
theorem c8_no_failure_when_all_cars_excluded :
    (generateReplay c8Drivers "A" 1).isOk = true ∧
    generateReplay c8Drivers "A" 1 = .ok c8Anim ∧
    c8Anim.frames.length = 5 ∧
    (c8Anim.frames.all (fun f =>
      f.markers.isEmpty && f.positions.isEmpty &&
      f.leaderboard.isEmpty && f.telSnap.isNone)) = true := by
  exact ⟨by with_unfolding_all rfl, by with_unfolding_all rfl,
    by with_unfolding_all rfl, by with_unfolding_all rfl⟩

/-- **C8** (amended).  When the focus car's selected lap exists but every
driver's lap telemetry is empty (so every car is excluded), the pipeline
still succeeds: it returns an animation with one frame per grid entry,
every frame empty of car data, rather than a "no data to animate"
failure. -/
theorem empty_result_yields_empty_animation (drivers : List DriverEntry)
    (focus : String) (lapN : ℤ) (lap : LapInfo)
    (hlap : (((drivers.find? (fun d => d.name == focus)).map (·.laps)).getD []).find?
        (fun l => l.lapNumber == lapN) = some lap)
    (hexcl : ∀ d ∈ drivers, ∀ l ∈ d.laps, l.lapNumber = lapN → l.telemetry = []) :
    generateReplay drivers focus lapN =
      .ok (assemble (buildFrames [] focus (lapGrid lap.lapTime))) ∧
    ∀ f ∈ (assemble (buildFrames [] focus (lapGrid lap.lapTime))).frames,
      f.markers = [] ∧ f.positions = [] ∧ f.leaderboard = [] ∧ f.telSnap = none := by
  have htracks : drivers.filterMap (carTrackFor lapN (lapGrid lap.lapTime)) = [] := by
    rw [List.filterMap_eq_nil_iff]
    intro d hd
    unfold carTrackFor
    rcases hfind : d.laps.find? (fun l => l.lapNumber == lapN) with _ | l
    · rw [hfind]
    · rw [hfind]
      have hln : l.lapNumber = lapN := by simpa using List.find?_some hfind
      have hte : l.telemetry = [] := hexcl d hd l (List.mem_of_find?_eq_some hfind) hln
      show (if l.telemetry.isEmpty = true then none
        else some (d.name, resampleCar l.telemetry (lapGrid lap.lapTime))) = none
      rw [if_pos (by simp [hte])]
  constructor
  · unfold generateReplay
    rw [hlap]
    show Except.ok (assemble (buildFrames
        (drivers.filterMap (carTrackFor lapN (lapGrid lap.lapTime)))
        focus (lapGrid lap.lapTime))) = _
    rw [htracks]
  · intro f hf
    rw [assemble_frames, buildFrames_eq_map, List.mem_map] at hf
    obtain ⟨it, _, rfl⟩ := hf
    rw [buildFrame_nil]
    exact ⟨rfl, rfl, rfl, rfl⟩

/-- **C8** witness: the all-cars-excluded roster `c8Drivers` satisfies the
hypotheses of `empty_result_yields_empty_animation` for lap 1, and the
pipeline indeed returns the empty animation. -/
theorem empty_result_yields_empty_animation_witness :
    generateReplay c8Drivers "A" 1 =
      .ok (assemble (buildFrames [] "A" (lapGrid (0 : ℚ)))) := by
  have h := empty_result_yields_empty_animation c8Drivers "A" 1 ⟨1, 0, []⟩
    (by with_unfolding_all rfl) (by decide)
  exact h.1

/-- **C9** (confirmed).  Every coordinate pair placed into a frame's marker
arrays by the pipeline — each present car's current point and each of its
up-to-5 trailing points — is defined (non-NaN): the current point is
emitted only under the X-and-Y guard, and although a trail point's Y is
appended after checking only its X, the resampler yields X and Y that are
defined at exactly the same grid times, so the unchecked Y is defined
whenever the checked X is. -/
theorem markers_always_defined (drivers : List DriverEntry) (focus : String)
    (lapN : ℤ) (a : Animation) (h : generateReplay drivers focus lapN = .ok a) :
    ∀ f ∈ a.frames, ∀ m ∈ f.markers, m.1.isSome = true ∧ m.2.isSome = true := by
  obtain ⟨lap, _, rfl⟩ := generateReplay_ok h
  intro f hf m hm
  rw [assemble_frames, buildFrames_eq_map, List.mem_map] at hf
  obtain ⟨it, _, rfl⟩ := hf
  rw [buildFrame_markers] at hm
  refine frameMarkers_defined _ it.1 ?_ m hm
  intro nt hnt r hr
  rw [List.mem_filterMap] at hnt
  obtain ⟨d, _, hsome⟩ := hnt
  obtain ⟨lp, hlp⟩ := carTrackFor_track hsome
  rw [hlp] at hr
  exact resampleCar_xy lp.telemetry _ r hr

/-- **C9** witness: for the one-car roster `c9Drivers` the pipeline
produces an animation (with non-empty marker arrays), and every marker
coordinate in every frame is defined. -/
theorem markers_always_defined_witness :
    (c9Anim.frames.all (fun f =>
      f.markers.all (fun m => m.1.isSome && m.2.isSome))) = true := by
  have h := markers_always_defined c9Drivers "A" 1 c9Anim (by with_unfolding_all rfl)
  rw [List.all_eq_true]
  intro f hf
  rw [List.all_eq_true]
  intro m hm
  have hm2 := h f hf m hm
  simp [hm2.1, hm2.2]

/-- **C10** (amended).  Among the displayed (top-10) leaderboard entries,
a car is labeled LEADER exactly when its computed gap is not strictly
positive, equivalently exactly when its distance equals the first-ranked
car's distance; several tied cars can therefore all show LEADER.  The
original claim's universal form fails only because a tied car ranked
outside the top 10 is not displayed at all
(see `c10_tied_car_outside_top10_not_shown`). -/
theorem leader_label_iff (tracks : List (String × List ResampledRow))
    (focus : String) (i : ℕ) (t : ℚ) (leader p : PosEntry)
    (hlead : (buildFrame tracks focus i t).positions.head? = some leader)
    (hp : p ∈ (buildFrame tracks focus i t).positions.take 10) :
    (p.driver, labelOf p) ∈ (buildFrame tracks focus i t).leaderboard ∧
    (labelOf p = GapLabel.leader ↔ p.distance = leader.distance) := by
  constructor
  · rw [buildFrame_leaderboard, List.mem_map]
    exact ⟨p, hp, rfl⟩
  · have hpmem : p ∈ (buildFrame tracks focus i t).positions :=
      (List.take_sublist _ _).mem hp
    rw [buildFrame_positions] at hpmem hlead
    rcases hsort : sortPositions (presentEntries tracks i) with _ | ⟨s0, rest⟩
    · rw [hsort] at hlead
      simp [withGaps] at hlead
    · rw [hsort] at hpmem hlead
      have hhead : (s0 :: rest).head? = some s0 := rfl
      have hgap : p.gap = (s0.distance - p.distance) / 200 := withGaps_gap_eq hhead hpmem
      have hld : leader.distance = s0.distance := by
        rw [withGaps_head hhead] at hlead
        injection hlead with h2
        rw [← h2]
      obtain ⟨q, hq, _, hdist, _⟩ := mem_withGaps hpmem
      have hsorted := sortPositions_sorted (presentEntries tracks i)
      rw [hsort] at hsorted
      have hle : p.distance ≤ s0.distance := by
        rcases List.mem_cons.mp hq with rfl | hq2
        · exact le_of_eq hdist
        · rw [hdist]
          exact (List.pairwise_cons.mp hsorted).1 q hq2
      have hiff : 0 < p.gap ↔ p.distance < s0.distance := by
        rw [hgap, lt_div_iff₀ (by norm_num : (0 : ℚ) < 200)]
        simp [sub_pos]
      constructor
      · intro hl
        rw [hld]
        by_contra hne
        have hgt : 0 < p.gap := hiff.mpr (lt_of_le_of_ne hle hne)
        unfold labelOf at hl
        rw [if_pos hgt] at hl
        exact GapLabel.noConfusion hl
      · intro heq
        have hnlt : ¬ 0 < p.gap := by
          rw [hiff]
          rw [hld] at heq
          rw [heq]
          exact lt_irrefl _
        unfold labelOf
        rw [if_neg hnlt]

/-- **C10** counterexample.  Eleven cars tied at distance 350: all eleven
are in the ranked positions at the leader's distance, but only the first
ten appear in the displayed leaderboard — car D11's distance equals the
first-ranked car's distance, yet it is not displayed as LEADER (it is not
displayed at all). -/
theorem c10_tied_car_outside_top10_not_shown :
    (buildFrame c10Tracks "D01" 0 0).positions.map (·.driver) =
      ["D01", "D02", "D03", "D04", "D05", "D06", "D07", "D08", "D09", "D10",
       "D11"] ∧
    (buildFrame c10Tracks "D01" 0 0).positions.map (·.distance) =
      [350, 350, 350, 350, 350, 350, 350, 350, 350, 350, 350] ∧
    (buildFrame c10Tracks "D01" 0 0).leaderboard.map Prod.fst =
      ["D01", "D02", "D03", "D04", "D05", "D06", "D07", "D08", "D09", "D10"] ∧
    "D11" ∉ ["D01", "D02", "D03", "D04", "D05", "D06", "D07", "D08", "D09",
      "D10"] := by
  exact ⟨by with_unfolding_all rfl, by with_unfolding_all rfl,
    by with_unfolding_all rfl, by decide⟩

/-- **C10** witness: two cars tied at the same distance both satisfy the
LEADER condition, so a single frame shows two LEADER lines. -/
theorem leader_label_iff_witness :
    ("A", GapLabel.leader) ∈ (buildFrame c10PairTracks "A" 0 0).leaderboard ∧
    ("B", GapLabel.leader) ∈ (buildFrame c10PairTracks "A" 0 0).leaderboard := by
  have hlist : (buildFrame c10PairTracks "A" 0 0).positions.take 10 =
      [⟨"A", 350, 0, 0⟩, ⟨"B", 350, 0, 0⟩] := by with_unfolding_all rfl
  have hmemA : (⟨"A", 350, 0, 0⟩ : PosEntry) ∈
      (buildFrame c10PairTracks "A" 0 0).positions.take 10 := by
    rw [hlist]
    exact List.mem_cons_self _ _
  have hmemB : (⟨"B", 350, 0, 0⟩ : PosEntry) ∈
      (buildFrame c10PairTracks "A" 0 0).positions.take 10 := by
    rw [hlist]
    exact List.mem_cons_of_mem _ (List.mem_cons_self _ _)
  have hA := leader_label_iff c10PairTracks "A" 0 0 ⟨"A", 350, 0, 0⟩ ⟨"A", 350, 0, 0⟩
    (by with_unfolding_all rfl) hmemA
  have hB := leader_label_iff c10PairTracks "A" 0 0 ⟨"A", 350, 0, 0⟩ ⟨"B", 350, 0, 0⟩
    (by with_unfolding_all rfl) hmemB
  have hlabA : labelOf (⟨"A", 350, 0, 0⟩ : PosEntry) = GapLabel.leader := hA.2.mpr rfl
  have hlabB : labelOf (⟨"B", 350, 0, 0⟩ : PosEntry) = GapLabel.leader := hB.2.mpr rfl
  constructor
  · have h1 := hA.1
    rw [hlabA] at h1
    exact h1
  · have h1 := hB.1
    rw [hlabB] at h1
    exact h1

end F1Replay
